import Mathlib

/-!
Verification of the weight-comparison core of `substrate-weight-compare`
(`core/src/lib.rs`), as a shallow embedding in Lean 4.

Conventions of the embedding:
* `u128`/`u32` machine integers are modelled as `Nat`.  No operation in the
  claims under study comes close to overflow, and the spec describes the term
  algebra as exact unsigned arithmetic.
* Rust `f64` percentages are modelled by `FloatVal`: NaN, the two infinities,
  and exact fractions (`Q`).  The IEEE comparison semantics (NaN compares
  false, `0/0 = NaN`, `x/0 = inf` for `x > 0`, float-to-int casts saturate
  and send NaN to 0) are reproduced; rounding of `f64` arithmetic is not
  modelled — no claim depends on it, and the division `x/x = 1` used by the
  `Unchanged` percent path is exact in IEEE arithmetic as well.
* Rust panics (`unreachable!`, `assert!`, `Option::unwrap`) are modelled as
  `Except.error` values whose message starts with `panic: `.
* `HashMap`/`HashSet`/`BTreeSet` are modelled as lists with explicit
  deduplication.  The sorted iteration order of `BTreeSet` is not modelled;
  no claim under study depends on the enumeration order.
-/

namespace SWC

/-- Exact fraction `n / d`.  Constructed through `mkQ`, which brings the
fraction to lowest terms, so that structural equality of constructed values
is value equality. -/
structure Q where
  n : Int
  d : Nat
deriving DecidableEq, Repr

/-- Divide a (nonnegative-denominator) integer by a natural number, exactly
(used only with divisors dividing the numerator). -/
def intDivNat (n : Int) (g : Nat) : Int :=
  if 0 ≤ n then Int.ofNat (n.natAbs / g) else - Int.ofNat (n.natAbs / g)

/-- Normalised fraction constructor. -/
def mkQ (n : Int) (d : Nat) : Q :=
  if d = 0 then ⟨0, 0⟩
  else
    let g := Nat.gcd n.natAbs d
    ⟨intDivNat n g, d / g⟩

/-- Cross-multiplication strict order on fractions (denominators positive in
all constructed values). -/
def Q.blt (a b : Q) : Bool := a.n * (b.d : Int) < b.n * (a.d : Int)

def Q.ble (a b : Q) : Bool := a.n * (b.d : Int) ≤ b.n * (a.d : Int)

/-- Model of an `f64` value: NaN, infinities, or an exact finite value. -/
inductive FloatVal
  | nan
  | inf
  | ninf
  | num (q : Q)
deriving DecidableEq, Repr

namespace FloatVal

/-- `f64::abs`. -/
def abs : FloatVal → FloatVal
  | nan => nan
  | inf => inf
  | ninf => inf
  | num q => num ⟨if q.n < 0 then -q.n else q.n, q.d⟩

/-- IEEE `<`: false whenever either side is NaN. -/
def blt : FloatVal → FloatVal → Bool
  | nan, _ => false
  | _, nan => false
  | ninf, ninf => false
  | ninf, _ => true
  | _, ninf => false
  | inf, _ => false
  | num _, inf => true
  | num a, num b => a.blt b

/-- IEEE `<=`: false whenever either side is NaN. -/
def ble : FloatVal → FloatVal → Bool
  | nan, _ => false
  | _, nan => false
  | ninf, _ => true
  | _, ninf => false
  | _, inf => true
  | inf, _ => false
  | num a, num b => a.ble b

/-- IEEE `>=`, i.e. `b <= a`. -/
def bge (a b : FloatVal) : Bool := b.ble a

def i128Max : Int := 2 ^ 127 - 1
def i128Min : Int := -(2 ^ 127)

/-- Truncation of `n / d` toward zero (Rust `as` float-to-int semantics). -/
def truncQ (q : Q) : Int :=
  if 0 ≤ q.n then Int.ofNat (q.n.natAbs / q.d) else - Int.ofNat (q.n.natAbs / q.d)

/-- `(p * 1000.0) as i128`: Rust float-to-int casts truncate toward zero,
saturate at the integer bounds, and send NaN to 0. -/
def toI1000 : FloatVal → Int
  | nan => 0
  | inf => i128Max
  | ninf => i128Min
  | num q =>
    let t := truncQ ⟨q.n * 1000, q.d⟩
    if t > i128Max then i128Max else if t < i128Min then i128Min else t

end FloatVal

/-- `pub type Percent = f64;` -/
abbrev Percent := FloatVal

/-- `percent(old, new) = 100.0 * (new as f64 / old as f64) - 100.0`,
with the IEEE special cases `0/0 = NaN` and `x/0 = +inf` (`x > 0`) made
explicit.  As a single fraction, `100*(n/o) - 100 = (100n - 100o)/o`. -/
def percent (old new : Nat) : Percent :=
  if old = 0 then (if new = 0 then .nan else .inf)
  else .num (mkQ (100 * (new : Int) - 100 * (old : Int)) old)

/-- `Ordering::cmp` on `Nat` (explicit, for ease of reasoning). -/
def ordN (a b : Nat) : Ordering :=
  if a < b then .lt else if a = b then .eq else .gt

/-- `Ordering::cmp` on `Int`. -/
def ordZ (a b : Int) : Ordering :=
  if a < b then .lt else if a = b then .eq else .gt

/-- `enum RelativeChange { Unchanged, Added, Removed, Changed }`. -/
inductive RelativeChange
  | unchanged
  | added
  | removed
  | changed
deriving DecidableEq, Repr

namespace RelativeChange

/-- Declaration index; the derived Rust `Ord` compares by it. -/
def idx : RelativeChange → Nat
  | unchanged => 0
  | added => 1
  | removed => 2
  | changed => 3

/-- The derived `Ord` of `RelativeChange` (variant declaration order). -/
def cmp (a b : RelativeChange) : Ordering := ordN a.idx b.idx

end RelativeChange

/-- `enum MinOrMax { Min, Max }`. -/
inductive MinOrMax
  | Min
  | Max
deriving DecidableEq, Repr

/-- `struct ComponentInstanceStrategy { exact: bool, min_or_max: MinOrMax }`. -/
structure ComponentInstanceStrategy where
  exact : Bool
  min_or_max : MinOrMax
deriving DecidableEq, Repr

namespace ComponentInstanceStrategy

def exact_min : ComponentInstanceStrategy := ⟨true, .Min⟩
def exact_max : ComponentInstanceStrategy := ⟨true, .Max⟩
def guess_min : ComponentInstanceStrategy := ⟨false, .Min⟩
def guess_max : ComponentInstanceStrategy := ⟨false, .Max⟩

end ComponentInstanceStrategy

/-- `enum CompareMethod { Base, ExactWorst, GuessWorst, Asymptotic }`. -/
inductive CompareMethod
  | base
  | exactWorst
  | guessWorst
  | asymptotic
deriving DecidableEq, Repr

namespace CompareMethod

/-- `CompareMethod::min`. -/
def min : CompareMethod → ComponentInstanceStrategy
  | base | guessWorst => .guess_min
  | exactWorst => .exact_min
  | asymptotic => .exact_max

/-- `CompareMethod::max`. -/
def max : CompareMethod → ComponentInstanceStrategy
  | base => .guess_min
  | guessWorst => .guess_max
  | exactWorst | asymptotic => .exact_max

end CompareMethod

/-- `enum Dimension { Time, Proof }`. -/
inductive Dimension
  | time
  | proof
deriving DecidableEq, Repr

/-- `struct ComponentRange { min: u32, max: u32 }` (from `parse::pallet`;
shape given by spec §3). -/
structure ComponentRange where
  min : Nat
  max : Nat
deriving DecidableEq, Repr

/-- Modelled from the spec: the symbolic term type `SimpleTerm` lives in the
`term` module, which is not part of the sources in scope.  Per spec §3 it has
scalar and variable leaves and interior nodes for addition, multiplication
(implied by "constant coefficient multiplying `name`") and a worst-case
combination operator (maximum). -/
inductive SimpleTerm
  | scalar (v : Nat)
  | var (name : String)
  | add (a b : SimpleTerm)
  | mul (a b : SimpleTerm)
  | tmax (a b : SimpleTerm)
deriving DecidableEq, Repr

/-- Modelled from the spec: the `Scope` type of the `scope` module (not part
of the sources in scope); per spec §3 an ordered mapping from variable name
to a bound term, with `put_var`, `is_empty`, equality. -/
structure SimpleScope where
  bindings : List (String × SimpleTerm)
deriving DecidableEq, Repr

namespace SimpleScope

def empty : SimpleScope := ⟨[]⟩

def get (s : SimpleScope) (name : String) : Option SimpleTerm :=
  (s.bindings.find? (fun p => p.1 = name)).map (·.2)

def binds (s : SimpleScope) (name : String) : Bool := (s.get name).isSome

/-- Bind `name` to `t`, overriding an existing binding. -/
def put_var (s : SimpleScope) (name : String) (t : SimpleTerm) : SimpleScope :=
  if s.binds name then ⟨s.bindings.map (fun p => if p.1 = name then (name, t) else p)⟩
  else ⟨s.bindings ++ [(name, t)]⟩

/-- Modelled from the spec (§4.2): `with_storage_weights(read_cost,
write_cost)` binds the storage pseudo-variables `READ` and `WRITE`. -/
def with_storage_weights (s : SimpleScope) (readCost writeCost : SimpleTerm) : SimpleScope :=
  (s.put_var "READ" readCost).put_var "WRITE" writeCost

def is_empty (s : SimpleScope) : Bool := s.bindings.isEmpty

end SimpleScope

namespace SimpleTerm

/-- All variable occurrences, in traversal order. -/
def varList : SimpleTerm → List String
  | .scalar _ => []
  | .var n => [n]
  | .add a b | .mul a b | .tmax a b => a.varList ++ b.varList

/-- Modelled from the spec (§3): `substitute(name, replacement)` replaces
every occurrence of the variable. -/
def substitute (t : SimpleTerm) (name : String) (repl : SimpleTerm) : SimpleTerm :=
  match t with
  | .scalar v => .scalar v
  | .var n => if n = name then repl else .var n
  | .add a b => .add (a.substitute name repl) (b.substitute name repl)
  | .mul a b => .mul (a.substitute name repl) (b.substitute name repl)
  | .tmax a b => .tmax (a.substitute name repl) (b.substitute name repl)

/-- Modelled from the spec (§3): variables referenced by the term that are
not bound in the scope (a set; modelled as a deduplicated list). -/
def free_vars (t : SimpleTerm) (s : SimpleScope) : List String :=
  (t.varList.filter (fun v => ¬ s.binds v)).dedup

/-- Modelled from the spec (§3): `eval(scope)` fails if any referenced
variable remains unbound.  All bindings arising in this development are
scalar terms. -/
def eval (t : SimpleTerm) (s : SimpleScope) : Except String Nat :=
  match t with
  | .scalar v => pure v
  | .var n =>
    match s.get n with
    | some (.scalar v) => pure v
    | some _ => .error ("Variable " ++ n ++ " is bound to a non-scalar term")
    | none => .error ("Variable " ++ n ++ " is unbound")
  | .add a b => do pure ((← a.eval s) + (← b.eval s))
  | .mul a b => do pure ((← a.eval s) * (← b.eval s))
  | .tmax a b => do pure (Nat.max (← a.eval s) (← b.eval s))

/-- Pointwise maximum of optional factors. -/
def optMax : Option Nat → Option Nat → Option Nat
  | none, b => b
  | some a, none => some a
  | some a, some b => some (Nat.max a b)

/-- Modelled from the spec (§3): the largest constant coefficient multiplying
`name` anywhere in the tree. -/
def find_largest_factor (t : SimpleTerm) (name : String) : Option Nat :=
  match t with
  | .scalar _ => none
  | .var n => if n = name then some 1 else none
  | .add a b => optMax (a.find_largest_factor name) (b.find_largest_factor name)
  | .tmax a b => optMax (a.find_largest_factor name) (b.find_largest_factor name)
  | .mul (.scalar s) u => (u.find_largest_factor name).map (s * ·)
  | .mul u (.scalar s) => (u.find_largest_factor name).map (s * ·)
  | .mul a b => optMax (a.find_largest_factor name) (b.find_largest_factor name)

end SimpleTerm

/-- `SimpleExtrinsic` (from `parse::pallet`; shape given by spec §3): the
dimension-split extrinsic record with identity `(pallet, name)`. -/
structure SimpleExtrinsic where
  pallet : String
  name : String
  term : SimpleTerm
  comp_ranges : Option (List (String × ComponentRange))
deriving DecidableEq, Repr

/-- `HashMap::get` on the modelled range map. -/
def rangeGet (r : Option (List (String × ComponentRange))) (c : String) :
    Option ComponentRange :=
  r.bind (fun l => (l.find? (fun p => p.1 = c)).map (·.2))

/-- `struct CompareParams` (the git/network flags are carried but unused by
the pure comparison core). -/
structure CompareParams where
  method : CompareMethod
  unit : Dimension
  ignore_errors : Bool
  git_pull : Bool
  offline : Bool
deriving DecidableEq, Repr

/-- `struct TermChange`. -/
structure TermChange where
  old : Option SimpleTerm
  old_v : Option Nat
  new : Option SimpleTerm
  new_v : Option Nat
  scope : SimpleScope
  percent : Percent
  change : RelativeChange
  method : CompareMethod
deriving DecidableEq, Repr

/-- `enum TermDiff { Changed(TermChange), Warning(TermChange, String),
Failed(String) }`. -/
inductive TermDiff
  | changed (c : TermChange)
  | warning (c : TermChange) (reason : String)
  | failed (err : String)
deriving DecidableEq, Repr

/-- `struct ExtrinsicDiff { name, file, change }`. -/
structure ExtrinsicDiff where
  name : String
  file : String
  change : TermDiff
deriving DecidableEq, Repr

namespace ExtrinsicDiff

/-- `ExtrinsicDiff::term`. -/
def term (d : ExtrinsicDiff) : Option TermChange :=
  match d.change with
  | .changed c => some c
  | .warning c _ => some c
  | .failed _ => none

/-- `ExtrinsicDiff::error`. -/
def error (d : ExtrinsicDiff) : Option String :=
  match d.change with
  | .failed err => some err
  | _ => none

/-- `ExtrinsicDiff::warning`. -/
def warning (d : ExtrinsicDiff) : Option String :=
  match d.change with
  | .warning _ w => some w
  | _ => none

end ExtrinsicDiff

abbrev TotalDiff := List ExtrinsicDiff

/-- `RelativeChange::new` — panics when both sides are absent. -/
def RelativeChange.new (old new : Option Nat) : Except String RelativeChange :=
  match old, new with
  | some _, some _ => pure .changed
  | none, some _ => pure .added
  | some _, none => pure .removed
  | none, none => .error "panic: Either old or new must be set"

/-- `Option<Result<T,E>>::transpose` followed by `?`. -/
def transposeE (o : Option (Except String Nat)) : Except String (Option Nat) :=
  match o with
  | none => pure none
  | some (.ok v) => pure (some v)
  | some (.error e) => .error e

/-- `compare_terms(old, new, method, scope)` (lib.rs:607). -/
def compare_terms (old new : Option SimpleTerm) (method : CompareMethod)
    (scope : SimpleScope) : Except String TermChange := do
  let old_v ← transposeE (old.map (·.eval scope))
  let new_v ← transposeE (new.map (·.eval scope))
  let change ← if old = new then pure RelativeChange.unchanged
               else RelativeChange.new old_v new_v
  let p := percent (old_v.getD 0) (new_v.getD 0)
  pure { old := old, old_v := old_v, new := new, new_v := new_v,
         change := change, percent := p, method := method, scope := scope }

/-- The source's `for`-loop with `?` and `push` (and `Vec::mapM`-style
accumulation), written structurally. -/
def mapME {α β : Type} (f : α → Except String β) : List α → Except String (List β)
  | [] => pure []
  | x :: xs => do
    let y ← f x
    let ys ← mapME f xs
    pure (y :: ys)

/-- The message of the differing-ranges failure in `instance_component`. -/
def diffRangesMsg (component pallet extrinsic : String) : String :=
  "Component " ++ component ++ " of call " ++ pallet ++ "::" ++ extrinsic ++
    " has different ranges in the old and new version - Use Guess instead!"

/-- The message of the no-range failure in `instance_component`. -/
def noRangeMsg (component pallet extrinsic : String) : String :=
  "No range for component " ++ component ++ " of call " ++ pallet ++ "::" ++
    extrinsic ++ " - use Guess instead!"

/-- `instance_component` (lib.rs:565): the four-way range-resolution rule. -/
def instance_component (component : String)
    (ra rb : Option (List (String × ComponentRange)))
    (strategy : ComponentInstanceStrategy) (pallet extrinsic : String) :
    Except String Nat :=
  match rangeGet ra component, rangeGet rb component with
  -- Only one extrinsic has a component range? Good
  | some r, none | none, some r =>
    pure (match strategy.min_or_max with | .Min => r.min | .Max => r.max)
  | some rra, some rrb =>
    -- Both extrinsics have the same range? Good
    if rra = rrb then
      pure (match strategy.min_or_max with | .Min => rra.min | .Max => rra.max)
    else
      -- Both extrinsics have different ranges? Bad, use the min/max.
      match strategy.exact, strategy.min_or_max with
      | true, _ => .error (diffRangesMsg component pallet extrinsic)
      | false, .Min => pure (Nat.min rra.min rrb.min)
      | false, .Max => pure (Nat.max rra.max rrb.max)
  -- No ranges? Bad, just guess 100.
  | none, none =>
    match strategy.exact, strategy.min_or_max with
    | false, .Min => pure 0
    | false, .Max => pure 100
    | true, _ => .error (noRangeMsg component pallet extrinsic)

/-- The union of free-variable names of the two optional terms relative to
`scope` (`free_a.union(&free_b)` in `extend_scoped_components`; a set,
modelled as a deduplicated list). -/
def freesFor (a b : Option SimpleExtrinsic) (scope : SimpleScope) : List String :=
  let free_a := (a.map (fun e => e.term.free_vars scope)).getD []
  let free_b := (b.map (fun e => e.term.free_vars scope)).getD []
  (free_a ++ free_b).dedup

/-- The "too many components" message of `extend_scoped_components`. -/
def tooManyMsg (pallet extrinsic : String) (n : Nat) : String :=
  "Too many components to compare: " ++ pallet ++ "::" ++ extrinsic ++
    " has " ++ toString n ++ " components - limit is 16"

/-- One corner scope: bind every free variable to its low or high instance
according to bit `c` of the combination index `i` (lib.rs:552). -/
def cornerScope (base : SimpleScope) (combos : List (String × Nat × Nat))
    (i : Nat) : SimpleScope :=
  (combos.enum).foldl
    (fun sc p =>
      let value := if i &&& (1 <<< p.1) = 0 then p.2.2.1 else p.2.2.2
      sc.put_var p.2.1 (.scalar value))
    base

/-- `BTreeSet::insert`: deduplicating insertion (sorted iteration order of
the B-tree is not modelled; no claim depends on the order). -/
def insertDedup (l : List SimpleScope) (s : SimpleScope) : List SimpleScope :=
  if s ∈ l then l else l ++ [s]

/-- `extend_scoped_components` (lib.rs:520). -/
def extend_scoped_components (a b : Option SimpleExtrinsic)
    (method : CompareMethod) (scope : SimpleScope) :
    Except String (List SimpleScope) := do
  let frees := freesFor a b scope
  let ra := a.map (fun ext => ext.comp_ranges.getD [])
  let rb := b.map (fun ext => ext.comp_ranges.getD [])
  let pe ← match a.or b with
    | some e => pure (e.pallet, e.name)
    | none => Except.error "panic: called Option::unwrap on a None value"
  if frees.length > 16 then
    Except.error (tooManyMsg pe.1 pe.2 frees.length)
  else do
    -- Combine the maximum and minimum of each component with combinatorics.
    let lowest ← mapME (fun free => instance_component free ra rb method.min pe.1 pe.2) frees
    let highest ← mapME (fun free => instance_component free ra rb method.max pe.1 pe.2) frees
    -- cartesian product of lowest and highest
    let combos := frees.zip (lowest.zip highest)
    let scopes := (List.range (2 ^ frees.length)).foldl
      (fun acc i =>
        let sc := cornerScope scope combos i
        if sc.is_empty then acc else insertDedup acc sc)
      []
    pure scopes

/-- The dimension adjustment at the head of `compare_extrinsics`
(lib.rs:444-468): build the base scope with the storage-access costs and,
in the proof dimension, substitute `READ`/`WRITE` by zero in both terms. -/
def adjustForUnit (old new : Option SimpleExtrinsic) (unit : Dimension) :
    Option SimpleExtrinsic × Option SimpleExtrinsic × SimpleScope :=
  match unit with
  | .time =>
    (old, new,
     SimpleScope.empty.with_storage_weights (.scalar 25000000) (.scalar 100000000))
  | .proof =>
    let z := SimpleScope.empty.with_storage_weights (.scalar 0) (.scalar 0)
    let old := old.map (fun o => { o with term := o.term.substitute "READ" (.scalar 0) })
    let old := old.map (fun o => { o with term := o.term.substitute "WRITE" (.scalar 0) })
    let new := new.map (fun o => { o with term := o.term.substitute "READ" (.scalar 0) })
    let new := new.map (fun o => { o with term := o.term.substitute "WRITE" (.scalar 0) })
    (old, new, z)

/-- The per-scope body of the loop in `compare_extrinsics` (lib.rs:476-493):
the free-variable `unreachable!`/`assert!` guards, then `compare_terms`. -/
def cornerStep (old new : Option SimpleExtrinsic) (method : CompareMethod)
    (name pallet : String) (scope : SimpleScope) : Except String TermChange :=
  if ¬ (old.all (fun e => (e.term.free_vars scope).isEmpty)) then
    .error ("panic: Free variable where there should be none: " ++ name ++ "::" ++ pallet)
  else if ¬ (new.all (fun e => (e.term.free_vars scope).isEmpty)) then
    .error "panic: assertion failed: new.map_or(true, |e| e.term.free_vars(scope).is_empty())"
  else
    compare_terms (old.map (·.term)) (new.map (·.term)) method scope

/-- `TermChange::cmp` (lib.rs:731): classification first (derived variant
order), then the percentage via the `×1000`-truncated integer comparison. -/
def TermChange.cmp (a b : TermChange) : Ordering :=
  let ord := RelativeChange.cmp a.change b.change
  if ord = .eq then ordZ a.percent.toI1000 b.percent.toI1000 else ord

/-- The message of the mixed-classification `unreachable!` branch; its two
interpolated booleans are necessarily both `false` there. -/
def inconclusiveMsg : String :=
  "Inconclusive: all_increase_or_decrease: false, all_added_or_removed: false"

/-- The reduction of the per-corner results at the tail of
`compare_extrinsics` (lib.rs:499-516). -/
def reduceResults (results : List TermChange) : Except String TermChange :=
  let all_increase_or_decrease := results.all
    (fun r => r.change = RelativeChange.changed ∨ r.change = RelativeChange.unchanged)
  let all_added_or_removed := results.all
    (fun r => r.change = RelativeChange.added ∨ r.change = RelativeChange.removed)
  if all_added_or_removed then
    -- Just pick the first one
    match results with
    | [] => .error "panic: called Option::unwrap on a None value"
    | r :: _ => pure r
  else if all_increase_or_decrease then
    -- `max_by` keeps the last of equally-maximal elements
    match results with
    | [] => .error "panic: called Option::unwrap on a None value"
    | r :: rest =>
      pure (rest.foldl (fun acc x => if TermChange.cmp acc x = .gt then acc else x) r)
  else
    .error ("Inconclusive: all_increase_or_decrease: " ++
      toString all_increase_or_decrease ++ ", all_added_or_removed: " ++
      toString all_added_or_removed)

/-- `compare_extrinsics` (lib.rs:439). -/
def compare_extrinsics (old new : Option SimpleExtrinsic)
    (params : CompareParams) : Except String TermChange := do
  let (old, new, scope) := adjustForUnit old new params.unit
  let scopes ← extend_scoped_components old new params.method scope
  let name ← match (old.map (·.name)).or (new.map (·.name)) with
    | some n => pure n
    | none => Except.error "panic: called Option::unwrap on a None value"
  let pallet ← match (old.map (·.pallet)).or (new.map (·.pallet)) with
    | some p => pure p
    | none => Except.error "panic: called Option::unwrap on a None value"
  let results ← mapME (cornerStep old new params.method name pallet) scopes
  reduceResults results

/-- `sanity_check_term` (lib.rs:698). -/
def sanity_check_term (term : SimpleTerm) : Except String Unit :=
  let reads := (term.find_largest_factor "READ").getD 0
  let writes := (term.find_largest_factor "WRITE").getD 0
  let larger := Nat.max reads writes
  if larger > 1000 then
    if reads > writes then .error ("Call has " ++ toString reads ++ " READs")
    else .error ("Call has " ++ toString writes ++ " WRITEs")
  else .ok ()

/-- `struct FilterParams`.  The `extrinsic`/`pallet` regexes are modelled as
their compiled match predicates (`fancy_regex` is an external collaborator);
the threshold is the modelled `f64`. -/
structure FilterParams where
  threshold : Percent
  change : Option (List RelativeChange)
  extrinsic : Option (String → Bool)
  pallet : Option (String → Bool)

/-- `FilterParams::included`. -/
def FilterParams.included (p : FilterParams) (c : RelativeChange) : Bool :=
  match p.change with
  | none => true
  | some s => s.contains c

/-- `regex.as_ref().map_or(true, |r| r.is_match(s).unwrap_or_default())`. -/
def matchOpt (r : Option (String → Bool)) (s : String) : Bool :=
  match r with
  | none => true
  | some f => f s

/-- `news.iter().find(|n| n.name == extrinsic && n.pallet == pallet)`. -/
def findExt (l : List SimpleExtrinsic) (pallet name : String) :
    Option SimpleExtrinsic :=
  l.find? (fun n => n.name = name ∧ n.pallet = pallet)

/-- The per-identity outcome in the loop of `compare_files` (lib.rs:669-688):
on comparator failure `Failed`; on success the sanity check of the present
side (prefer new, fall back to old), a failure of which downgrades to
`Warning`. -/
def outcomeFor (old new : Option SimpleExtrinsic) (params : CompareParams) :
    TermDiff :=
  match compare_extrinsics old new params with
  | .error err => .failed err
  | .ok change =>
    match new.or old with
    | some ext =>
      match sanity_check_term ext.term with
      | .error e => .warning change (e ++ ": " ++ ext.pallet ++ "::" ++ ext.name)
      | .ok _ => .changed change
    | none => .failed "panic: We already checked that the extrinsic exists in either old or new"

/-- `compare_files` (lib.rs:632), on records already projected into the
requested dimension.  Modelled from the spec at two points where the source
leans on modules outside the sources in scope: (1) the inputs are the
dimension-split `SimpleExtrinsic` records — spec §4.6: "both inputs are
extrinsic records already projected into the requested dimension" (the
`map_term`/`simplify` projection lives in the missing `term`/`parse`
modules); (2) regex matching is the predicate carried by `FilterParams`.
The `BTreeSet` identity union iterates deduplicated (sorted order not
modelled; no claim depends on the emission order). -/
def compare_files (olds news : List SimpleExtrinsic) (params : CompareParams)
    (filter : FilterParams) : TotalDiff :=
  let names := (olds.map (fun e => (e.pallet, e.name)) ++
                news.map (fun e => (e.pallet, e.name))).dedup
  names.filterMap (fun pe =>
    if ¬ matchOpt filter.pallet pe.1 then none
    else if ¬ matchOpt filter.extrinsic pe.2 then none
    else
      let new := findExt news pe.1 pe.2
      let old := findExt olds pe.1 pe.2
      some { name := pe.2, file := pe.1,
             change := outcomeFor old new params })

/-- `TermDiff::cmp` (lib.rs:719): note the first arm makes every comparison
with a `Failed` on the left return `Less` — including `Failed` vs `Failed`. -/
def TermDiff.cmp : TermDiff → TermDiff → Ordering
  | .failed _, _ => .lt
  | _, .failed _ => .gt
  | .warning a _, .changed b => TermChange.cmp a b
  | .changed a, .warning b _ => TermChange.cmp a b
  | .warning a _, .warning b _ => TermChange.cmp a b
  | .changed a, .changed b => TermChange.cmp a b

/-- Whether the outcome is `Failed`. -/
def TermDiff.isFailedB : TermDiff → Bool
  | .failed _ => true
  | _ => false

/-- The boolean "not greater" relation a Rust stable `sort_by` sorts by. -/
def diffLe (a b : ExtrinsicDiff) : Bool :=
  ¬ TermDiff.cmp a.change b.change = .gt

/-- `sort_changes` (lib.rs:714): a stable sort by `TermDiff::cmp`. -/
def sort_changes (diff : TotalDiff) : TotalDiff :=
  diff.mergeSort diffLe

/-- `filter_changes` (lib.rs:749). -/
def filter_changes (diff : TotalDiff) (params : FilterParams) : TotalDiff :=
  diff.filter (fun extrinsic =>
    match extrinsic.change with
    | .failed _ => true
    | .warning change _ | .changed change =>
      if ¬ params.included change.change then false
      else if change.change = RelativeChange.changed ∧
              change.percent.abs.blt params.threshold then false
      else if change.change = RelativeChange.unchanged ∧
              params.threshold.bge (.num (mkQ 1 1000000)) then false
      else true)

/-! ### Helper lemmas -/

instance {ε α : Type} [DecidableEq ε] [DecidableEq α] : DecidableEq (Except ε α)
  | .error e, .error f =>
    if h : e = f then .isTrue (by rw [h]) else .isFalse (fun c => h (Except.error.inj c))
  | .error _, .ok _ => .isFalse (fun c => Except.noConfusion c)
  | .ok _, .error _ => .isFalse (fun c => Except.noConfusion c)
  | .ok a, .ok b =>
    if h : a = b then .isTrue (by rw [h]) else .isFalse (fun c => h (Except.ok.inj c))

/-- The classification `compare_terms` produces, as a pure function of the
term pair: structural equality, else the presence pattern. -/
def classify (o n : Option SimpleTerm) : RelativeChange :=
  if o = n then .unchanged
  else match o, n with
    | some _, some _ => .changed
    | none, some _ => .added
    | some _, none => .removed
    | none, none => .unchanged

theorem compare_terms_change (o n : Option SimpleTerm) (m : CompareMethod)
    (s : SimpleScope) (r : TermChange) (h : compare_terms o n m s = .ok r) :
    r.change = classify o n := by
  cases o with
  | none =>
    cases n with
    | none =>
      simp only [compare_terms, transposeE, Option.map, bind, Except.bind, pure,
        Except.pure, reduceIte] at h
      cases h
      rfl
    | some tn =>
      cases hv : tn.eval s with
      | error e =>
        simp [compare_terms, transposeE, Option.map, bind, Except.bind, hv,
          pure, Except.pure] at h
      | ok v =>
        simp only [compare_terms, transposeE, Option.map, bind, Except.bind, hv,
          pure, Except.pure, reduceCtorEq, reduceIte, RelativeChange.new] at h
        cases h
        rfl
  | some ta =>
    cases hv : ta.eval s with
    | error e =>
      simp [compare_terms, transposeE, Option.map, bind, Except.bind, hv,
        pure, Except.pure] at h
    | ok v =>
      cases n with
      | none =>
        simp only [compare_terms, transposeE, Option.map, bind, Except.bind, hv,
          pure, Except.pure, reduceCtorEq, reduceIte, RelativeChange.new] at h
        cases h
        rfl
      | some tn =>
        cases hw : tn.eval s with
        | error e =>
          simp [compare_terms, transposeE, Option.map, bind, Except.bind,
            hv, hw, pure, Except.pure] at h
        | ok w =>
          by_cases hab : ta = tn
          · subst hab
            simp only [compare_terms, transposeE, Option.map, bind, Except.bind,
              hv, pure, Except.pure, reduceIte] at h
            cases h
            simp [classify]
          · simp only [compare_terms, transposeE, Option.map, bind, Except.bind,
              hv, hw, pure, Except.pure, Option.some.injEq,
              if_neg hab, RelativeChange.new] at h
            cases h
            simp [classify, hab]

theorem mapME_mem {α β : Type} (f : α → Except String β) (l : List α)
    (out : List β) (h : mapME f l = .ok out) :
    ∀ y ∈ out, ∃ x ∈ l, f x = .ok y := by
  induction l generalizing out with
  | nil =>
    simp only [mapME, pure, Except.pure] at h
    cases h
    simp
  | cons x xs ih =>
    simp only [mapME, bind, Except.bind] at h
    cases hx : f x with
    | error e => rw [hx] at h; cases h
    | ok y =>
      rw [hx] at h
      cases hxs : mapME f xs with
      | error e => rw [hxs] at h; cases h
      | ok ys =>
        rw [hxs] at h
        simp only [pure, Except.pure] at h
        cases h
        intro z hz
        cases hz with
        | head => exact ⟨x, List.mem_cons_self x xs, hx⟩
        | tail _ hz =>
          rcases ih ys hxs z hz with ⟨w, hw, hfw⟩
          exact ⟨w, List.mem_cons_of_mem x hw, hfw⟩

theorem cornerStep_ok (o n : Option SimpleExtrinsic) (m : CompareMethod)
    (name pallet : String) (s : SimpleScope) (r : TermChange)
    (h : cornerStep o n m name pallet s = .ok r) :
    compare_terms (o.map (·.term)) (n.map (·.term)) m s = .ok r := by
  unfold cornerStep at h
  split at h
  · cases h
  · split at h
    · cases h
    · exact h

/-- If every result carries the same classification, the reduction step can
never produce the mixed-classification (`Inconclusive`) error. -/
theorem reduce_ne_inconclusive (results : List TermChange) (c : RelativeChange)
    (hall : ∀ r ∈ results, r.change = c) :
    reduceResults results ≠ .error inconclusiveMsg := by
  unfold reduceResults
  by_cases hB : results.all
      (fun r => r.change = RelativeChange.added ∨ r.change = RelativeChange.removed) = true
  · rw [if_pos hB]
    cases results with
    | nil => intro h; exact absurd (Except.error.inj h) (by decide)
    | cons r rest => intro h; cases h
  · rw [if_neg hB]
    by_cases hA : results.all
        (fun r => r.change = RelativeChange.changed ∨ r.change = RelativeChange.unchanged) = true
    · rw [if_pos hA]
      cases results with
      | nil => simp at hB
      | cons r rest => intro h; cases h
    · exfalso
      simp only [List.all_eq_true, decide_eq_true_eq] at hA hB
      push_neg at hA hB
      rcases hA with ⟨r1, hr1, hr1c⟩
      rcases hB with ⟨r2, hr2, hr2c⟩
      have h1 := hall r1 hr1
      have h2 := hall r2 hr2
      rw [h1] at hr1c
      rw [h2] at hr2c
      cases c <;> simp_all

theorem tc_cmp_self (c : TermChange) : TermChange.cmp c c = .eq := by
  simp [TermChange.cmp, RelativeChange.cmp, ordN, ordZ]

theorem mkQ_zero (v : Nat) (hv : v ≠ 0) : mkQ 0 v = ⟨0, 1⟩ := by
  unfold mkQ
  rw [if_neg hv]
  simp only [Int.natAbs_zero, Nat.gcd_zero_left, intDivNat, le_refl, reduceIte,
    Nat.zero_div, Int.ofNat_eq_coe, Nat.cast_zero]
  rw [Nat.div_self (Nat.pos_of_ne_zero hv)]

/-- The min/max projection of a declared range. -/
def pickRange (m : MinOrMax) (r : ComponentRange) : Nat :=
  match m with
  | .Min => r.min
  | .Max => r.max

/-! ### Claim theorems -/

/-- Claim C1: `instance_component` resolves the bound by the four-way
range-resolution table: one declared side wins; equal declared ranges win;
different declared ranges fail under `exact` and otherwise take the union
bound (min of mins / max of maxes); no declared range fails under `exact`
and otherwise guesses `0` for `Min` and `100` for `Max`. -/
theorem instance_component_resolution (c : String)
    (ra rb : Option (List (String × ComponentRange)))
    (strat : ComponentInstanceStrategy) (p e : String) :
    (∀ r : ComponentRange,
       (rangeGet ra c = some r ∧ rangeGet rb c = none) ∨
       (rangeGet ra c = none ∧ rangeGet rb c = some r) →
       instance_component c ra rb strat p e = .ok (pickRange strat.min_or_max r)) ∧
    (∀ r r' : ComponentRange,
       rangeGet ra c = some r → rangeGet rb c = some r' → r = r' →
       instance_component c ra rb strat p e = .ok (pickRange strat.min_or_max r)) ∧
    (∀ r r' : ComponentRange,
       rangeGet ra c = some r → rangeGet rb c = some r' → r ≠ r' →
       (strat.exact = true →
          instance_component c ra rb strat p e = .error (diffRangesMsg c p e)) ∧
       (strat.exact = false →
          instance_component c ra rb strat p e =
            .ok (match strat.min_or_max with
                 | .Min => Nat.min r.min r'.min
                 | .Max => Nat.max r.max r'.max))) ∧
    (rangeGet ra c = none → rangeGet rb c = none →
       (strat.exact = true →
          instance_component c ra rb strat p e = .error (noRangeMsg c p e)) ∧
       (strat.exact = false →
          instance_component c ra rb strat p e =
            .ok (match strat.min_or_max with | .Min => 0 | .Max => 100))) := by
  obtain ⟨ex, mm⟩ := strat
  refine ⟨?_, ?_, ?_, ?_⟩
  · rintro r (⟨h1, h2⟩ | ⟨h1, h2⟩) <;>
      cases mm <;> simp [instance_component, h1, h2, pickRange, pure, Except.pure]
  · intro r r' h1 h2 hrr
    subst hrr
    cases mm <;> simp [instance_component, h1, h2, pickRange, pure, Except.pure]
  · intro r r' h1 h2 hrr
    constructor <;> intro hex <;> subst hex <;>
      cases mm <;> simp [instance_component, h1, h2, hrr, pure, Except.pure]
  · intro h1 h2
    constructor <;> intro hex <;> subst hex <;>
      cases mm <;> simp [instance_component, h1, h2, pure, Except.pure]

/-- Witness for C1 at concrete inputs: one-sided range `{1,10}` resolved by
max; differing ranges `{1,10}`/`{2,8}` under a non-exact min strategy give
the min of mins; no ranges under exact fail. -/
theorem instance_component_resolution_witness :
    instance_component "c" (some [("c", ⟨1, 10⟩)]) none ⟨false, .Max⟩ "p" "e" = .ok 10 ∧
    instance_component "c" (some [("c", ⟨1, 10⟩)]) (some [("c", ⟨2, 8⟩)])
      ⟨false, .Min⟩ "p" "e" = .ok 1 ∧
    instance_component "c" none none ⟨true, .Min⟩ "p" "e" = .error (noRangeMsg "c" "p" "e") := by
  refine ⟨?_, ?_, ?_⟩
  · exact (instance_component_resolution "c" (some [("c", ⟨1, 10⟩)]) none
      ⟨false, .Max⟩ "p" "e").1 ⟨1, 10⟩ (Or.inl ⟨rfl, rfl⟩)
  · exact ((instance_component_resolution "c" (some [("c", ⟨1, 10⟩)])
      (some [("c", ⟨2, 8⟩)]) ⟨false, .Min⟩ "p" "e").2.2.1 ⟨1, 10⟩ ⟨2, 8⟩ rfl rfl
      (by decide)).2 rfl
  · exact ((instance_component_resolution "c" none none ⟨true, .Min⟩ "p" "e").2.2.2
      rfl rfl).1 rfl

/-- Claim C4 (counterexample): a formula present on both sides with
structurally identical terms that evaluate to `0` is classified `Unchanged`,
but its percent is NaN (`100 * (0/0) - 100`), not `0`. -/
theorem identical_terms_zero_value_percent_nan :
    (compare_terms (some (SimpleTerm.scalar 0)) (some (SimpleTerm.scalar 0))
        CompareMethod.base SimpleScope.empty).map (fun r => (r.change, r.percent)) =
      .ok (RelativeChange.unchanged, FloatVal.nan) ∧
    FloatVal.nan ≠ FloatVal.num (mkQ 0 1) := by
  exact ⟨rfl, by decide⟩

/-- Claim C4 (amended): a formula present on both sides with structurally
identical terms is classified `Unchanged`; its percent is `0` whenever the
common evaluated value is nonzero, and NaN (from the float division `0/0`)
when the common value is `0`. -/
theorem identical_terms_unchanged (t : SimpleTerm) (m : CompareMethod)
    (s : SimpleScope) (v : Nat) (hv : t.eval s = .ok v) :
    compare_terms (some t) (some t) m s =
      .ok { old := some t, old_v := some v, new := some t, new_v := some v,
            scope := s, percent := if v = 0 then .nan else .num (mkQ 0 1),
            change := .unchanged, method := m } := by
  simp only [compare_terms, transposeE, Option.map, bind, Except.bind, hv, pure,
    Except.pure, reduceIte, Option.getD]
  by_cases hz : v = 0
  · subst hz
    simp [percent]
  · rw [if_neg hz]
    simp only [percent, hz, reduceIte]
    have : 100 * (v : Int) - 100 * (v : Int) = 0 := by ring
    rw [this, mkQ_zero v hz]
    rfl

/-- Witness for C4 (amended) at the concrete identical pair `scalar 3`. -/
theorem identical_terms_unchanged_witness :
    compare_terms (some (SimpleTerm.scalar 3)) (some (SimpleTerm.scalar 3))
        CompareMethod.base SimpleScope.empty =
      .ok { old := some (SimpleTerm.scalar 3), old_v := some 3,
            new := some (SimpleTerm.scalar 3), new_v := some 3,
            scope := SimpleScope.empty, percent := .num (mkQ 0 1),
            change := .unchanged, method := CompareMethod.base } := by
  exact identical_terms_unchanged (SimpleTerm.scalar 3) CompareMethod.base
    SimpleScope.empty 3 rfl

/-- Claim C5 (counterexample): with no free variables and an *empty* base
scope, `extend_scoped_components` returns no scope at all — the empty scope
is silently dropped, not returned as the single legitimate result. -/
theorem k0_empty_scope_dropped :
    extend_scoped_components (some ⟨"p", "e", SimpleTerm.scalar 5, none⟩) none
        CompareMethod.base SimpleScope.empty = .ok [] ∧
    ([] : List SimpleScope) ≠ [SimpleScope.empty] := by
  exact ⟨rfl, by decide⟩

/-- Claim C5 (amended): when the union of free variables is empty (`k = 0`),
`extend_scoped_components` returns exactly one scope — the base scope —
provided the base scope is non-empty; an empty base scope is dropped by the
`is_empty` guard, yielding zero scopes. -/
theorem k0_single_scope (a b : Option SimpleExtrinsic) (m : CompareMethod)
    (scope : SimpleScope) (x : SimpleExtrinsic) (hx : a.or b = some x)
    (h0 : freesFor a b scope = []) :
    extend_scoped_components a b m scope =
      .ok (if scope.is_empty then [] else [scope]) := by
  by_cases hemp : scope.is_empty
  · simp [extend_scoped_components, hx, h0, hemp, mapME, cornerScope, insertDedup,
      bind, Except.bind, pure, Except.pure, List.range_succ]
  · simp only [extend_scoped_components, hx, h0, hemp, mapME, cornerScope,
      insertDedup, bind, Except.bind, pure, Except.pure, Bool.false_eq_true,
      reduceIte, List.length_nil, Nat.pow_zero, gt_iff_lt, Nat.lt_irrefl,
      List.zip_nil_left, List.enum_nil, List.foldl_nil]
    rw [show List.range 1 = [0] from rfl]
    simp [hemp]

/-- Witness for C5 (amended): a constant formula over the non-empty time
base scope yields exactly the base scope. -/
theorem k0_single_scope_witness :
    extend_scoped_components (some ⟨"p", "e", SimpleTerm.scalar 5, none⟩) none
        CompareMethod.base
        (SimpleScope.empty.with_storage_weights (.scalar 25000000) (.scalar 100000000)) =
      .ok [SimpleScope.empty.with_storage_weights (.scalar 25000000) (.scalar 100000000)] := by
  exact k0_single_scope (some ⟨"p", "e", SimpleTerm.scalar 5, none⟩) none
    CompareMethod.base _ ⟨"p", "e", SimpleTerm.scalar 5, none⟩ rfl rfl

/-- Claim C8 (counterexample): the comparator is not reflexive on `Failed`
entries — a `Failed` entry compared with itself yields `Less`, not `Equal`,
so it is not a total order on all diff entries. -/
theorem termdiff_cmp_failed_self_lt :
    TermDiff.cmp (.failed "x") (.failed "x") = .lt ∧ Ordering.lt ≠ Ordering.eq := by
  exact ⟨rfl, by decide⟩

/-- Claim C8 (amended): the comparator used by `sort_changes` compares every
non-`Failed` entry equal to itself (so ordering among `Warning`/`Changed`
entries is deterministic), but compares a `Failed` entry as `Less` than
anything — itself included — so it is not a total order on entries whose
outcome is `Failed`; those entries all sort first, in unspecified mutual
order. -/
theorem termdiff_cmp_self_spec (d d' : TermDiff) :
    (TermDiff.cmp d d = if d.isFailedB then .lt else .eq) ∧
    (d.isFailedB = true → TermDiff.cmp d d' = .lt) := by
  constructor
  · cases d with
    | failed e => rfl
    | warning c r => simp [TermDiff.cmp, TermDiff.isFailedB, tc_cmp_self]
    | changed c => simp [TermDiff.cmp, TermDiff.isFailedB, tc_cmp_self]
  · intro hf
    cases d with
    | failed e => cases d' <;> rfl
    | warning c r => simp [TermDiff.isFailedB] at hf
    | changed c => simp [TermDiff.isFailedB] at hf

/-- Witness for C8 (amended) at concrete entries. -/
theorem termdiff_cmp_self_spec_witness :
    TermDiff.cmp (.failed "a") (.changed
      { old := none, old_v := none, new := none, new_v := none,
        scope := SimpleScope.empty, percent := .nan,
        change := .unchanged, method := .base }) = .lt := by
  exact (termdiff_cmp_self_spec (.failed "a") _).2 rfl

/-- Claim C3: when the union of free variable names of the two sides
(relative to the base scope) exceeds 16, `extend_scoped_components` fails
with the "Too many components" error — before resolving or binding any
component — and `compare_extrinsics` propagates exactly that error, so no
term is evaluated at any scope. -/
theorem too_many_components_fails (a b : Option SimpleExtrinsic)
    (m : CompareMethod) (scope : SimpleScope) (x : SimpleExtrinsic)
    (hx : a.or b = some x) (h16 : 16 < (freesFor a b scope).length) :
    extend_scoped_components a b m scope =
      .error (tooManyMsg x.pallet x.name (freesFor a b scope).length) ∧
    ∀ (old new : Option SimpleExtrinsic) (params : CompareParams),
      adjustForUnit old new params.unit = (a, b, scope) →
      compare_extrinsics old new params =
        .error (tooManyMsg x.pallet x.name (freesFor a b scope).length) := by
  have hgen : ∀ m' : CompareMethod, extend_scoped_components a b m' scope =
      .error (tooManyMsg x.pallet x.name (freesFor a b scope).length) := by
    intro m'
    simp [extend_scoped_components, hx, h16, bind, Except.bind, pure, Except.pure]
  refine ⟨hgen m, ?_⟩
  intro old new params hadj
  simp [compare_extrinsics, hadj, hgen params.method, bind, Except.bind]

/-- A 17-component formula, for the C3 witness. -/
def c3Term : SimpleTerm :=
  (List.range 17).foldl (fun t i => .add t (.var ("c" ++ toString i))) (.scalar 0)

/-- The time-dimension base scope. -/
def timeScope : SimpleScope :=
  SimpleScope.empty.with_storage_weights (.scalar 25000000) (.scalar 100000000)

/-- Witness for C3: a 17-component extrinsic makes both the range-extension
engine and the comparator fail with the "Too many components" error. -/
theorem too_many_components_fails_witness :
    extend_scoped_components (some ⟨"p", "e", c3Term, none⟩) none
        CompareMethod.base timeScope = .error (tooManyMsg "p" "e" 17) ∧
    compare_extrinsics (some ⟨"p", "e", c3Term, none⟩) none
        ⟨.base, .time, false, false, false⟩ = .error (tooManyMsg "p" "e" 17) := by
  have h := too_many_components_fails (some ⟨"p", "e", c3Term, none⟩) none
    CompareMethod.base timeScope ⟨"p", "e", c3Term, none⟩ rfl (by decide)
  exact ⟨h.1, h.2 (some ⟨"p", "e", c3Term, none⟩) none ⟨.base, .time, false, false, false⟩ rfl⟩

/-- Claim C2: for every extrinsic pair with at least one side present, the
classifications of the per-corner results actually produced by the
`compare_extrinsics` pipeline (corner scopes from `extend_scoped_components`,
one `compare_terms` evaluation per corner via `cornerStep`) form a
homogeneous set — all in `{Changed, Unchanged}` or all in
`{Added, Removed}` — and therefore the mixed-classification branch of the
final reduction (`reduceResults`) can never produce its `Inconclusive`
internal error. -/
theorem compare_extrinsics_homogeneous (old new : Option SimpleExtrinsic)
    (params : CompareParams) (hp : old.isSome ∨ new.isSome)
    (o n : Option SimpleExtrinsic) (base : SimpleScope)
    (hadj : adjustForUnit old new params.unit = (o, n, base))
    (scopes : List SimpleScope) (results : List TermChange)
    (name pallet : String)
    (hsc : extend_scoped_components o n params.method base = .ok scopes)
    (hres : mapME (cornerStep o n params.method name pallet) scopes = .ok results) :
    ((∀ r ∈ results, r.change = RelativeChange.changed ∨
        r.change = RelativeChange.unchanged) ∨
     (∀ r ∈ results, r.change = RelativeChange.added ∨
        r.change = RelativeChange.removed)) ∧
    reduceResults results ≠ .error inconclusiveMsg := by
  have hkey : ∀ r ∈ results, r.change = classify (o.map (·.term)) (n.map (·.term)) := by
    intro r hr
    rcases mapME_mem _ scopes results hres r hr with ⟨s, hs, hstep⟩
    exact compare_terms_change _ _ _ _ _
      (cornerStep_ok o n params.method name pallet s r hstep)
  constructor
  · cases hc : classify (o.map (·.term)) (n.map (·.term)) with
    | unchanged => left; intro r hr; right; rw [hkey r hr]; exact hc
    | changed => left; intro r hr; left; rw [hkey r hr]; exact hc
    | added => right; intro r hr; left; rw [hkey r hr]; exact hc
    | removed => right; intro r hr; right; rw [hkey r hr]; exact hc
  · exact reduce_ne_inconclusive results _ hkey

/-- The single corner result of the C2 witness run. -/
def c2Res : TermChange :=
  { old := some (SimpleTerm.scalar 5), old_v := some 5, new := none,
    new_v := none, scope := timeScope, percent := .num ⟨-100, 1⟩,
    change := .removed, method := .base }

/-- Witness for C2: a removed extrinsic evaluated at the single time-base
corner scope gives a homogeneous (all-`Removed`) result set, and the
reduction does not hit the `Inconclusive` branch. -/
theorem compare_extrinsics_homogeneous_witness :
    ((∀ r ∈ [c2Res], r.change = RelativeChange.changed ∨
        r.change = RelativeChange.unchanged) ∨
     (∀ r ∈ [c2Res], r.change = RelativeChange.added ∨
        r.change = RelativeChange.removed)) ∧
    reduceResults [c2Res] ≠ .error inconclusiveMsg := by
  exact compare_extrinsics_homogeneous (some ⟨"p", "e", SimpleTerm.scalar 5, none⟩)
    none ⟨.base, .time, false, false, false⟩ (Or.inl rfl)
    (some ⟨"p", "e", SimpleTerm.scalar 5, none⟩) none timeScope rfl
    [timeScope] [c2Res] "e" "p" rfl rfl

/-- Claim C6: `filter_changes` retains every `Failed` entry unconditionally;
a `Warning`/`Changed` entry is retained iff its inner classification passes
the change-type allowlist, it is not a `Changed` whose absolute percent is
strictly below the threshold, and it is not an `Unchanged` while the
threshold is at least `1e-6`. -/
theorem filter_changes_spec (diff : TotalDiff) (params : FilterParams)
    (x : ExtrinsicDiff) :
    x ∈ filter_changes diff params ↔
      x ∈ diff ∧
        (x.error.isSome = true ∨
         ∃ c, x.term = some c ∧ params.included c.change = true ∧
           ¬ (c.change = RelativeChange.changed ∧
              c.percent.abs.blt params.threshold = true) ∧
           ¬ (c.change = RelativeChange.unchanged ∧
              params.threshold.bge (.num (mkQ 1 1000000)) = true)) := by
  rw [filter_changes, List.mem_filter]
  apply and_congr_right
  intro _
  cases hx : x.change with
  | failed err =>
    simp [ExtrinsicDiff.error, ExtrinsicDiff.term, hx]
  | warning c r =>
    simp only [hx, ExtrinsicDiff.error, ExtrinsicDiff.term, Option.isSome_none,
      Bool.false_eq_true, false_or, Option.some.injEq]
    constructor
    · intro hpred
      split_ifs at hpred with h1 h2 h3
      exact ⟨c, rfl, h1, h2, h3⟩
    · rintro ⟨c', hc', hinc, hn1, hn2⟩
      subst hc'
      rw [if_neg (not_not_intro hinc), if_neg hn1, if_neg hn2]
  | changed c =>
    simp only [hx, ExtrinsicDiff.error, ExtrinsicDiff.term, Option.isSome_none,
      Bool.false_eq_true, false_or, Option.some.injEq]
    constructor
    · intro hpred
      split_ifs at hpred with h1 h2 h3
      exact ⟨c, rfl, h1, h2, h3⟩
    · rintro ⟨c', hc', hinc, hn1, hn2⟩
      subst hc'
      rw [if_neg (not_not_intro hinc), if_neg hn1, if_neg hn2]

/-- Diff entries for the C6 witness: `Changed` at `+4.999%`, `Changed` at
`+5.001%`, and an `Unchanged`, against threshold `5`. -/
def c6Entry (p : Q) (cls : RelativeChange) : ExtrinsicDiff :=
  { name := "e", file := "p",
    change := .changed
      { old := some (SimpleTerm.scalar 1), old_v := some 1,
        new := some (SimpleTerm.scalar 2), new_v := some 2,
        scope := SimpleScope.empty, percent := .num p,
        change := cls, method := .base } }

/-- The C6 witness filter parameters: threshold `5`, no allowlist. -/
def c6Params : FilterParams :=
  { threshold := .num ⟨5, 1⟩, change := none, extrinsic := none, pallet := none }

/-- Witness for C6: with threshold 5, a `+4.999%` `Changed` entry is dropped,
a `+5.001%` one is kept, and an `Unchanged` entry is dropped. -/
theorem filter_changes_spec_witness :
    c6Entry ⟨5001, 1000⟩ .changed ∈
      filter_changes [c6Entry ⟨4999, 1000⟩ .changed, c6Entry ⟨5001, 1000⟩ .changed,
        c6Entry ⟨0, 1⟩ .unchanged] c6Params ∧
    ¬ (c6Entry ⟨4999, 1000⟩ .changed ∈
      filter_changes [c6Entry ⟨4999, 1000⟩ .changed, c6Entry ⟨5001, 1000⟩ .changed,
        c6Entry ⟨0, 1⟩ .unchanged] c6Params) ∧
    ¬ (c6Entry ⟨0, 1⟩ .unchanged ∈
      filter_changes [c6Entry ⟨4999, 1000⟩ .changed, c6Entry ⟨5001, 1000⟩ .changed,
        c6Entry ⟨0, 1⟩ .unchanged] c6Params) := by
  refine ⟨?_, ?_, ?_⟩
  · exact (filter_changes_spec _ c6Params _).mpr
      ⟨by decide, Or.inr ⟨_, rfl, by decide, by decide, by decide⟩⟩
  · intro hmem
    rcases (filter_changes_spec _ c6Params _).mp hmem with ⟨-, h | ⟨c', hc', -, hn1, -⟩⟩
    · exact absurd h (by decide)
    · cases hc'
      exact hn1 (by decide)
  · intro hmem
    rcases (filter_changes_spec _ c6Params _).mp hmem with ⟨-, h | ⟨c', hc', -, -, hn2⟩⟩
    · exact absurd h (by decide)
    · cases hc'
      exact hn2 (by decide)

/-- Claim C10: the classification produced by `compare_terms` is independent
of the evaluation scope — any two scopes at which evaluation succeeds give
the same classification, which depends only on structural term equality and
the presence pattern. -/
theorem compare_terms_scope_independent (o n : Option SimpleTerm)
    (m : CompareMethod) (s1 s2 : SimpleScope) (r1 r2 : TermChange)
    (hp : o.isSome ∨ n.isSome)
    (h1 : compare_terms o n m s1 = .ok r1)
    (h2 : compare_terms o n m s2 = .ok r2) :
    r1.change = r2.change := by
  rw [compare_terms_change o n m s1 r1 h1, compare_terms_change o n m s2 r2 h2]

/-- Witness for C10: the same term pair evaluated at two different scopes. -/
theorem compare_terms_scope_independent_witness :
    ({ old := some (SimpleTerm.scalar 1), old_v := some 1,
       new := some (SimpleTerm.scalar 2), new_v := some 2,
       scope := SimpleScope.empty, percent := .num (mkQ 100 1),
       change := .changed, method := CompareMethod.base } : TermChange).change =
    ({ old := some (SimpleTerm.scalar 1), old_v := some 1,
       new := some (SimpleTerm.scalar 2), new_v := some 2,
       scope := ⟨[("y", SimpleTerm.scalar 7)]⟩, percent := .num (mkQ 100 1),
       change := .changed, method := CompareMethod.base } : TermChange).change := by
  exact compare_terms_scope_independent (some (SimpleTerm.scalar 1))
    (some (SimpleTerm.scalar 2)) CompareMethod.base SimpleScope.empty
    ⟨[("y", SimpleTerm.scalar 7)]⟩ _ _ (Or.inl rfl) rfl rfl

/-- Claim C9: whenever `compare_extrinsics` succeeds, `compare_files` runs
the sanity check on the term of the present side (prefer new, fall back to
old); the check fails exactly when the largest `READ`/`WRITE` factor exceeds
1000, names the dominant operation in its message, and a failure downgrades
the outcome to a `Warning` that still carries the computed change. -/
theorem sanity_check_wiring :
    (∀ (old new : Option SimpleExtrinsic) (params : CompareParams)
       (change : TermChange) (ext : SimpleExtrinsic),
       compare_extrinsics old new params = .ok change →
       new.or old = some ext →
       (sanity_check_term ext.term = .ok () →
          outcomeFor old new params = .changed change) ∧
       (∀ e, sanity_check_term ext.term = .error e →
          outcomeFor old new params =
            .warning change (e ++ ": " ++ ext.pallet ++ "::" ++ ext.name))) ∧
    (∀ t : SimpleTerm,
       (sanity_check_term t = .ok () ↔
          Nat.max ((t.find_largest_factor "READ").getD 0)
            ((t.find_largest_factor "WRITE").getD 0) ≤ 1000) ∧
       (1000 < Nat.max ((t.find_largest_factor "READ").getD 0)
            ((t.find_largest_factor "WRITE").getD 0) →
          sanity_check_term t = .error
            (if ((t.find_largest_factor "WRITE").getD 0) <
                ((t.find_largest_factor "READ").getD 0)
             then "Call has " ++ toString ((t.find_largest_factor "READ").getD 0)
                    ++ " READs"
             else "Call has " ++ toString ((t.find_largest_factor "WRITE").getD 0)
                    ++ " WRITEs"))) ∧
    (∀ (olds news : List SimpleExtrinsic) (params : CompareParams)
       (filter : FilterParams) (d : ExtrinsicDiff),
       d ∈ compare_files olds news params filter →
       d.change =
         outcomeFor (findExt olds d.file d.name) (findExt news d.file d.name) params) := by
  refine ⟨?_, ?_, ?_⟩
  · intro old new params change ext hcmp hext
    constructor
    · intro hs
      simp [outcomeFor, hcmp, hext, hs]
    · intro e hs
      simp [outcomeFor, hcmp, hext, hs]
  · intro t
    constructor
    · by_cases h1000 : Nat.max ((t.find_largest_factor "READ").getD 0)
          ((t.find_largest_factor "WRITE").getD 0) > 1000
      · rw [sanity_check_term, if_pos h1000]
        constructor
        · intro h
          split_ifs at h
        · intro hle
          exact absurd h1000 (by omega)
      · rw [sanity_check_term, if_neg h1000]
        rw [Nat.not_lt] at h1000
        simp [h1000]
    · intro h1000
      rw [sanity_check_term, if_pos h1000]
      split_ifs <;> rfl
  · intro olds news params filter d hd
    rw [compare_files, List.mem_filterMap] at hd
    rcases hd with ⟨pe, hpe, hf⟩
    split_ifs at hf
    cases hf
    rfl

/-- The sanity-check witness term: `1500·WRITE + 200·READ`. -/
def c9Term : SimpleTerm :=
  .add (.mul (.scalar 1500) (.var "WRITE")) (.mul (.scalar 200) (.var "READ"))

/-- The C9 witness extrinsic. -/
def c9Ext : SimpleExtrinsic := ⟨"pw", "ew", c9Term, none⟩

/-- The change the C9 witness run computes (self-comparison of `c9Term`). -/
def c9Change : TermChange :=
  { old := some c9Term, old_v := some 155000000000, new := some c9Term,
    new_v := some 155000000000, scope := timeScope, percent := .num ⟨0, 1⟩,
    change := .unchanged, method := .base }

/-- Witness for C9: a term with WRITE factor 1500 and READ factor 200 fails
the sanity check mentioning "1500 WRITEs" (not READs), and `compare_files`'
per-identity outcome downgrades the successful comparison to a `Warning`
carrying the computed change. -/
theorem sanity_check_wiring_witness :
    sanity_check_term c9Term = .error "Call has 1500 WRITEs" ∧
    outcomeFor (some c9Ext) (some c9Ext) ⟨.base, .time, false, false, false⟩ =
      .warning c9Change ("Call has 1500 WRITEs" ++ ": " ++ "pw" ++ "::" ++ "ew") := by
  have h1 : sanity_check_term c9Term = .error "Call has 1500 WRITEs" :=
    (sanity_check_wiring.2.1 c9Term).2 (by decide)
  refine ⟨h1, ?_⟩
  exact (sanity_check_wiring.1 (some c9Ext) (some c9Ext)
    ⟨.base, .time, false, false, false⟩ c9Change c9Ext rfl rfl).2
    "Call has 1500 WRITEs" h1

/-- `ordN` is `.gt` exactly on reversed strict order. -/
theorem tc_cmp_ne_gt_iff (a b : TermChange) :
    TermChange.cmp a b ≠ .gt ↔
      (a.change.idx < b.change.idx ∨
       (a.change.idx = b.change.idx ∧ a.percent.toI1000 ≤ b.percent.toI1000)) := by
  unfold TermChange.cmp RelativeChange.cmp ordN ordZ
  rcases Nat.lt_trichotomy a.change.idx b.change.idx with h | h | h
  · simp [h]
  · have h1 : ¬ a.change.idx < b.change.idx := by omega
    simp only [h1, reduceIte, h, lt_self_iff_false, false_or, true_and, reduceCtorEq]
    rcases lt_trichotomy a.percent.toI1000 b.percent.toI1000 with hz | hz | hz
    · simp [hz]
      omega
    · simp [hz]
    · have hz1 : ¬ a.percent.toI1000 < b.percent.toI1000 := by omega
      have hz2 : ¬ a.percent.toI1000 = b.percent.toI1000 := by omega
      simp [hz1, hz2]
      omega
  · have h1 : ¬ a.change.idx < b.change.idx := by omega
    have h2 : ¬ a.change.idx = b.change.idx := by omega
    simp [h1, h2]

theorem diffLe_iff (a b : ExtrinsicDiff) :
    diffLe a b = true ↔ TermDiff.cmp a.change b.change ≠ .gt := by
  simp [diffLe]

/-- Comparing any non-`Failed` entry against a `Failed` one yields `.gt`. -/
theorem cmp_nonfailed_failed (d : TermDiff) (hf : d.isFailedB = false)
    (e : String) : TermDiff.cmp d (.failed e) = .gt := by
  cases d with
  | failed f => simp [TermDiff.isFailedB] at hf
  | warning c r => rfl
  | changed c => rfl

/-- Comparing a `Failed` entry against anything yields `.lt`. -/
theorem cmp_failed_left (e : String) (d : TermDiff) :
    TermDiff.cmp (.failed e) d = .lt := by
  cases d <;> rfl

theorem tc_ne_gt_total (x y : TermChange) :
    TermChange.cmp x y ≠ .gt ∨ TermChange.cmp y x ≠ .gt := by
  rw [tc_cmp_ne_gt_iff, tc_cmp_ne_gt_iff]
  omega

theorem tc_le_trans (x y z : TermChange) (h1 : TermChange.cmp x y ≠ .gt)
    (h2 : TermChange.cmp y z ≠ .gt) : TermChange.cmp x z ≠ .gt := by
  rw [tc_cmp_ne_gt_iff] at h1 h2 ⊢
  omega

theorem diffLe_total (a b : ExtrinsicDiff) :
    (diffLe a b || diffLe b a) = true := by
  rw [Bool.or_eq_true, diffLe_iff, diffLe_iff]
  cases hca : a.change with
  | failed e => exact Or.inl (by rw [cmp_failed_left]; intro h; cases h)
  | warning c r =>
    cases hcb : b.change with
    | failed f => exact Or.inr (by rw [cmp_failed_left]; intro h; cases h)
    | warning c' r' => exact tc_ne_gt_total c c'
    | changed c' => exact tc_ne_gt_total c c'
  | changed c =>
    cases hcb : b.change with
    | failed f => exact Or.inr (by rw [cmp_failed_left]; intro h; cases h)
    | warning c' r' => exact tc_ne_gt_total c c'
    | changed c' => exact tc_ne_gt_total c c'

theorem diffLe_trans (a b c : ExtrinsicDiff) (h1 : diffLe a b = true)
    (h2 : diffLe b c = true) : diffLe a c = true := by
  rw [diffLe_iff] at h1 h2 ⊢
  cases hca : a.change with
  | failed e => rw [cmp_failed_left]; intro h; cases h
  | warning x r =>
    cases hcc : c.change with
    | failed f =>
      exfalso
      cases hcb : b.change with
      | failed g =>
        rw [hca, hcb] at h1
        exact h1 rfl
      | warning y r' =>
        rw [hcb, hcc] at h2
        exact h2 rfl
      | changed y =>
        rw [hcb, hcc] at h2
        exact h2 rfl
    | warning z r'' =>
      cases hcb : b.change with
      | failed g => rw [hca, hcb] at h1; exact absurd rfl h1
      | warning y r' =>
        rw [hca, hcb] at h1; rw [hcb, hcc] at h2
        exact tc_le_trans x y z h1 h2
      | changed y =>
        rw [hca, hcb] at h1; rw [hcb, hcc] at h2
        exact tc_le_trans x y z h1 h2
    | changed z =>
      cases hcb : b.change with
      | failed g => rw [hca, hcb] at h1; exact absurd rfl h1
      | warning y r' =>
        rw [hca, hcb] at h1; rw [hcb, hcc] at h2
        exact tc_le_trans x y z h1 h2
      | changed y =>
        rw [hca, hcb] at h1; rw [hcb, hcc] at h2
        exact tc_le_trans x y z h1 h2
  | changed x =>
    cases hcc : c.change with
    | failed f =>
      exfalso
      cases hcb : b.change with
      | failed g =>
        rw [hca, hcb] at h1
        exact h1 rfl
      | warning y r' =>
        rw [hcb, hcc] at h2
        exact h2 rfl
      | changed y =>
        rw [hcb, hcc] at h2
        exact h2 rfl
    | warning z r'' =>
      cases hcb : b.change with
      | failed g => rw [hca, hcb] at h1; exact absurd rfl h1
      | warning y r' =>
        rw [hca, hcb] at h1; rw [hcb, hcc] at h2
        exact tc_le_trans x y z h1 h2
      | changed y =>
        rw [hca, hcb] at h1; rw [hcb, hcc] at h2
        exact tc_le_trans x y z h1 h2
    | changed z =>
      cases hcb : b.change with
      | failed g => rw [hca, hcb] at h1; exact absurd rfl h1
      | warning y r' =>
        rw [hca, hcb] at h1; rw [hcb, hcc] at h2
        exact tc_le_trans x y z h1 h2
      | changed y =>
        rw [hca, hcb] at h1; rw [hcb, hcc] at h2
        exact tc_le_trans x y z h1 h2

/-- Claim C7: `sort_changes` sorts the diff so that every `Failed` entry
comes before every `Warning`/`Changed` entry; `Warning` and `Changed`
entries are compared by their inner `TermChange` — classification first, in
the declared order `Unchanged < Added < Removed < Changed`, then the percent
after the `×1000` truncated-integer conversion — and a `Warning` and a
`Changed` carrying equal payloads compare equal regardless of the warning
reason text. -/
theorem sort_changes_spec :
    (∀ diff : TotalDiff, (sort_changes diff).Pairwise
       (fun x y => y.change.isFailedB = true → x.change.isFailedB = true)) ∧
    (∀ (a b : TermChange) (r r' : String),
       TermDiff.cmp (.warning a r) (.changed b) = TermChange.cmp a b ∧
       TermDiff.cmp (.changed a) (.warning b r) = TermChange.cmp a b ∧
       TermDiff.cmp (.warning a r) (.warning b r') = TermChange.cmp a b ∧
       TermDiff.cmp (.changed a) (.changed b) = TermChange.cmp a b) ∧
    (∀ (f : String) (c : TermChange) (r : String),
       TermDiff.cmp (.failed f) (.warning c r) = .lt ∧
       TermDiff.cmp (.failed f) (.changed c) = .lt ∧
       TermDiff.cmp (.warning c r) (.failed f) = .gt ∧
       TermDiff.cmp (.changed c) (.failed f) = .gt) ∧
    (RelativeChange.cmp .unchanged .added = .lt ∧
     RelativeChange.cmp .added .removed = .lt ∧
     RelativeChange.cmp .removed .changed = .lt) ∧
    (∀ a b : TermChange, a.change = b.change →
       TermChange.cmp a b = ordZ a.percent.toI1000 b.percent.toI1000) ∧
    (∀ a b : TermChange, a.change ≠ b.change →
       TermChange.cmp a b = RelativeChange.cmp a.change b.change) ∧
    (∀ (a : TermChange) (r r' : String),
       TermDiff.cmp (.warning a r) (.changed a) = .eq ∧
       TermDiff.cmp (.changed a) (.warning a r) = .eq ∧
       TermDiff.cmp (.warning a r) (.warning a r') = .eq) := by
  refine ⟨?_, ?_, ?_, ?_, ?_, ?_, ?_⟩
  · intro diff
    have hs := List.sorted_mergeSort
      (fun a b c => diffLe_trans a b c) diffLe_total diff
    simp only [sort_changes]
    refine hs.imp ?_
    intro x y hxy hf
    rw [diffLe_iff] at hxy
    cases hcx : x.change with
    | failed e => rfl
    | warning c r =>
      exfalso
      cases hcy : y.change with
      | failed f =>
        rw [hcx, hcy] at hxy
        exact hxy rfl
      | warning c' r' => rw [hcy] at hf; cases hf
      | changed c' => rw [hcy] at hf; cases hf
    | changed c =>
      exfalso
      cases hcy : y.change with
      | failed f =>
        rw [hcx, hcy] at hxy
        exact hxy rfl
      | warning c' r' => rw [hcy] at hf; cases hf
      | changed c' => rw [hcy] at hf; cases hf
  · intro a b r r'
    exact ⟨rfl, rfl, rfl, rfl⟩
  · intro f c r
    exact ⟨rfl, rfl, rfl, rfl⟩
  · exact ⟨rfl, rfl, rfl⟩
  · intro a b h
    unfold TermChange.cmp
    rw [h]
    simp [RelativeChange.cmp, ordN]
  · intro a b h
    have hne : RelativeChange.cmp a.change b.change ≠ .eq := by
      cases ha : a.change <;> cases hb : b.change <;>
        simp_all [RelativeChange.cmp, ordN, RelativeChange.idx]
    unfold TermChange.cmp
    rw [if_neg hne]
  · intro a r r'
    exact ⟨tc_cmp_self a, tc_cmp_self a, tc_cmp_self a⟩

/-- A sample non-`Failed` payload for the C7 witness. -/
def c7Chg : TermChange :=
  { old := none, old_v := none, new := none, new_v := none,
    scope := SimpleScope.empty, percent := .num ⟨42, 1⟩,
    change := .changed, method := .base }

/-- A second payload (different classification) for the C7 witness. -/
def c7Chg2 : TermChange :=
  { old := none, old_v := none, new := none, new_v := none,
    scope := SimpleScope.empty, percent := .num ⟨7, 1⟩,
    change := .added, method := .base }

/-- Witness for C7: the failed-before-changed pairwise property on a
concrete two-entry diff, and the classification-first comparison at two
concrete payloads of different classification. -/
theorem sort_changes_spec_witness :
    (sort_changes [⟨"e1", "p1", .failed "x"⟩, ⟨"e2", "p2", .changed c7Chg⟩]).Pairwise
      (fun x y => y.change.isFailedB = true → x.change.isFailedB = true) ∧
    TermChange.cmp c7Chg2 c7Chg = RelativeChange.cmp .added .changed := by
  constructor
  · exact sort_changes_spec.1 [⟨"e1", "p1", .failed "x"⟩, ⟨"e2", "p2", .changed c7Chg⟩]
  · exact sort_changes_spec.2.2.2.2.2.1 c7Chg2 c7Chg (by decide)

end SWC
